import Mathlib

/-!
Shallow embedding of `spikesorters/ironclust/ironclust.py`, the process
orchestration adapter for the IronClust external spike sorter, together with
theorems settling the specification claims about it.

The filesystem is modelled as a predicate `isFile : String → Bool` (and
`pathExists` where the source uses `os.path.exists`), absolute-path
resolution as an abstract function `resolve : String → String`, and the
process environment as `Option String` values.  Raised Python exceptions
become `Except`/`Option String` error values; functions that write files
return the list of written paths so that "no file is written" is expressible.
-/

namespace IronClust

/-- The double-quote character, written by code point to keep source scanning simple. -/
def dquoteChar : Char := Char.ofNat 34

/-- The single-quote character (apostrophe), by code point. -/
def squoteChar : Char := Char.ofNat 39

/-- The newline character, by code point. -/
def nlChar : Char := Char.ofNat 10

/-- The equals-sign character, by code point. -/
def eqChar : Char := Char.ofNat 61

/-- One-character string holding a double quote. -/
def dq : String := String.mk [dquoteChar]

/-- One-character string holding a single quote. -/
def sq : String := String.mk [squoteChar]

/-- Substring containment test, modelling Python `in` on strings
(`needle in haystack`). -/
def strContains (haystack needle : String) : Bool :=
  decide (needle.data <:+: haystack.data)

/-- Embeds the quote-stripping step of `check_if_installed`
(`if ironclust_path.startswith(double-quote): ironclust_path = ironclust_path[1:-1]`):
when the first character is a double quote, drop the first and the last
character. -/
def stripQuotes (s : String) : String :=
  if s.data.head? = some dquoteChar then String.mk ((s.data.drop 1).dropLast) else s

/-- Embeds `check_if_installed(ironclust_path)`: `None` gives `False`;
otherwise the path is quote-stripped, resolved to an absolute path
(`str(Path(p).absolute())`, modelled by the abstract `resolve`), and the
probe reports whether the marker file `<path>/matlab/irc2.m` is a file. -/
def check_if_installed (resolve : String → String) (isFile : String → Bool) :
    Option String → Bool
  | none => false
  | some p => isFile (resolve (stripQuotes p) ++ "/matlab/irc2.m")

/-- Embeds `IronClustSorter.installation_mesg`, the remediation message of the
Python class, character for character. -/
def installation_mesg : String :=
  "\nTo use IronClust run:\n\n        >>> git clone https://github.com/flatironinstitute/ironclust\n    and provide the installation path by setting the IRONCLUST_PATH\n    environment variables or using IronClustSorter.set_ironclust_path().\n\n\n    "

/-- Embeds `IronClustSorter._setup_recording`: if the installation probe on the
class-level `ironclust_path` fails, raise `Exception(installation_mesg)` before
touching the filesystem; otherwise delegate to
`MdaRecordingExtractor.write_recording`, which generates `raw.mda`, `geom.csv`
and `params.json` inside `output_folder/ironclust_dataset`.  The result pairs
the list of file paths written under the output directory with the error
message, if any. -/
def setup_recording (ironclust_path : Option String) (resolve : String → String)
    (isFile : String → Bool) (output_folder : String) :
    List String × Option String :=
  if check_if_installed resolve isFile ironclust_path = false then
    ([], some installation_mesg)
  else
    let dataset_dir := output_folder ++ "/ironclust_dataset"
    ([dataset_dir ++ "/raw.mda", dataset_dir ++ "/geom.csv",
      dataset_dir ++ "/params.json"], none)

/-- Scalar parameter values as they occur in the sorter's parameter mapping:
integers, booleans and strings.  (Fractional defaults such as `3.5` enter the
model through the string their host rendering produces; see
`argfileText`, which, like the source's `str(val)`, only ever uses the
rendering.) -/
inductive PValue where
  | int : Int → PValue
  | bool : Bool → PValue
  | str : String → PValue
deriving DecidableEq

/-- Python `str()` rendering of a parameter value: `str(True) = "True"`,
`str(False) = "False"`, integers in decimal, strings verbatim. -/
def PValue.render : PValue → String
  | .int i => toString i
  | .bool b => if b then "True" else "False"
  | .str s => s

/-- Embeds the argfile generation loop of `IronClustSorter._run`:
`txt` starts empty, each parameter appends a `key=value` line, and a final
`samplerate=<value>` line is appended.  The sampling rate enters as the string
its host rendering produces (`str(samplerate)`). -/
def argfileText (params : List (String × PValue)) (samplerateStr : String) :
    String :=
  (params.foldl (fun acc kv => acc ++ kv.1 ++ "=" ++ kv.2.render ++ "\n") "")
    ++ "samplerate=" ++ samplerateStr ++ "\n"

/-- Splits a character list at every occurrence of `sep`; a list with `n`
separators yields `n + 1` chunks (so a trailing separator yields a trailing
empty chunk). -/
def splitOnChar (sep : Char) : List Char → List (List Char)
  | [] => [[]]
  | c :: cs =>
    if c = sep then [] :: splitOnChar sep cs
    else
      match splitOnChar sep cs with
      | [] => [[c]]
      | r :: rs => (c :: r) :: rs

/-- The newline-delimited lines of a generated argfile, empty lines dropped. -/
def argfileLines (txt : String) : List (List Char) :=
  (splitOnChar nlChar txt.data).filter (fun l => !l.isEmpty)

/-- Splits one `key=value` line at its first `=`: the key is everything before
the first `=`, the value everything after it. -/
def parseLine (l : List Char) : String × String :=
  (String.mk (l.takeWhile (fun c => c ≠ eqChar)),
   String.mk ((l.dropWhile (fun c => c ≠ eqChar)).drop 1))

/-- Modelled from the spec: re-parsing of the generated argfile text.  The
repository contains no parser for `argfile.txt` (the external MATLAB tool
consumes it), so the parse is the spec's round-trip reading: split the text
into newline-delimited lines and each non-empty line into `key=value` at the
first `=`. -/
def parseArgfile (txt : String) : List (String × String) :=
  (argfileLines txt).map parseLine

/-- The text of one generated parameter line, without its trailing newline:
`key=value` with the value rendered by `str()`. -/
def entryLineStr (kv : String × PValue) : String :=
  kv.1 ++ "=" ++ kv.2.render

/-- Side conditions under which the argfile text is parseable: the key holds
neither a newline nor an equals sign, and the rendered value holds no
newline. -/
def goodEntry (kv : String × PValue) : Prop :=
  nlChar ∉ kv.1.data ∧ eqChar ∉ kv.1.data ∧ nlChar ∉ kv.2.render.data

instance (kv : String × PValue) : Decidable (goodEntry kv) := by
  unfold goodEntry; infer_instance

/-- Embeds the MATLAB script template of `IronClustSorter._run` (`cmd`), with
the four `format` substitution points as arguments. -/
def buildMatlabScript (ironclust_path tmpdir dataset_dir source_dir : String) :
    String :=
  "\n            addpath(" ++ sq ++ source_dir ++ sq ++ ");\n            addpath("
    ++ sq ++ ironclust_path ++ sq ++ ", " ++ sq ++ ironclust_path ++ "/matlab"
    ++ sq ++ ", " ++ sq ++ ironclust_path ++ "/matlab/mdaio" ++ sq
    ++ ");\n            try\n                p_ironclust(" ++ sq ++ tmpdir ++ sq
    ++ ", " ++ sq ++ dataset_dir ++ "/raw.mda" ++ sq ++ ", " ++ sq ++ dataset_dir
    ++ "/geom.csv" ++ sq ++ ", " ++ sq ++ sq ++ ", " ++ sq ++ sq ++ ", " ++ sq
    ++ tmpdir ++ "/firings.mda" ++ sq ++ ", " ++ sq ++ dataset_dir
    ++ "/argfile.txt" ++ sq
    ++ ");\n            catch\n                fprintf(" ++ sq
    ++ "----------------------------------------" ++ sq
    ++ ");\n                fprintf(lasterr());\n                quit(1);\n            end\n            quit(0);\n        "

/-- Embeds the host-OS test of `IronClustSorter._run`:
`if win in sys.platform and sys.platform != darwin`. -/
def isWindowsPlatform (platform : String) : Bool :=
  strContains platform "win" && platform ≠ "darwin"

/-- Embeds the shell-command templates of `IronClustSorter._run`: the Windows
variant (`matlab ... -wait -r run_ironclust`) or the POSIX variant (a bash
script quoting the scratch directory), chosen by the host platform string. -/
def buildShellCmd (platform : String) (tmpdir : String) : String :=
  if isWindowsPlatform platform then
    "\n                cd " ++ tmpdir
      ++ "\n                matlab -nosplash -nodisplay -wait -r run_ironclust\n            "
  else
    "\n                #!/bin/bash\n                cd " ++ dq ++ tmpdir ++ dq
      ++ "\n                matlab -nosplash -nodisplay -r run_ironclust\n            "

/-- Embeds the tail of `IronClustSorter._run` after `shell_script.wait()`
returns `retcode`: a non-zero code raises
`Exception(ironclust returned a non-zero exit code)`; then a missing
`tmp/firings.mda` raises `Exception(Result file does not exist: <path>)`; only
then is `tmp/samplerate.txt` written.  Success carries the path and content of
that final write. -/
def run_after_wait (retcode : Int) (isFile : String → Bool)
    (output_folder : String) (samplerateStr : String) :
    Except String (String × String) :=
  let tmpdir := output_folder ++ "/tmp"
  if retcode ≠ 0 then
    .error "ironclust returned a non-zero exit code"
  else
    let result_fname := tmpdir ++ "/firings.mda"
    if isFile result_fname = false then
      .error ("Result file does not exist: " ++ result_fname)
    else
      .ok (tmpdir ++ "/samplerate.txt", samplerateStr)

/-- The in-memory sorting result constructed by the output deserializer:
`MdaSortingExtractor(file_path=..., sampling_frequency=...)`.  The sampling
frequency is carried as the sidecar's text. -/
structure SortingResult where
  file_path : String
  sampling_frequency : String
deriving DecidableEq

/-- Modelled from the spec: the external reader `MdaSortingExtractor` is not
part of this repository; per the spec's deserializer contract, a missing
output file fails with a NotFound error naming the missing path, and an
existing one yields the sorting result. -/
def mdaSortingExtractor (isFile : String → Bool) (file_path : String)
    (sampling_frequency : String) : Except String SortingResult :=
  if isFile file_path then .ok ⟨file_path, sampling_frequency⟩
  else .error ("NotFound: " ++ file_path)

/-- Embeds `IronClustSorter.get_result_from_folder`: `open(samplerate_fname)`
on a missing sidecar raises a file-not-found error naming that path (modelled
as a NotFound error); otherwise the sidecar's text is read and the external
reader is applied to `tmp/firings.mda`. -/
def get_result_from_folder (isFile : String → Bool)
    (readFile : String → String) (output_folder : String) :
    Except String SortingResult :=
  let tmpdir := output_folder ++ "/tmp"
  let result_fname := tmpdir ++ "/firings.mda"
  let samplerate_fname := tmpdir ++ "/samplerate.txt"
  if isFile samplerate_fname then
    mdaSortingExtractor isFile result_fname (readFile samplerate_fname)
  else
    .error ("NotFound: " ++ samplerate_fname)

/-- Embeds `IronClustSorter.get_sorter_version`.  The installation path is
read from `os.environ` at key `IRONCLUST_PATH` (a missing key raises
`KeyError`); the class attribute `IronClustSorter.ironclust_path` is in scope
but unused by the source, and is carried here as an explicit unused argument.
If `<path>/matlab/version.txt` exists its first line is executed by the host
interpreter (`exec`), modelled by the abstract `evalLine` returning the value
bound to `version` if any (`None` models a failing `exec` or a missing
`version` key in `d`); an absent file yields the sentinel string `unknown`. -/
def get_sorter_version (env_ironclust_path : Option String)
    (class_ironclust_path : Option String) (pathExists : String → Bool)
    (readFirstLine : String → String) (evalLine : String → Option String) :
    Except String String :=
  match env_ironclust_path with
  | none => .error "KeyError: IRONCLUST_PATH"
  | some p =>
    let version_filename := p ++ "/matlab/version.txt"
    if pathExists version_filename then
      match evalLine (readFirstLine version_filename) with
      | some version => .ok version
      | none => .error "exec failed to bind version"
    else .ok "unknown"

/-! ## Helper lemmas -/

/-- Quote-stripping removes an enclosing pair of double quotes exactly. -/
theorem stripQuotes_enclosing (p : String) : stripQuotes (dq ++ p ++ dq) = p := by
  unfold stripQuotes
  have hdata : (dq ++ p ++ dq).data = dquoteChar :: (p.data ++ [dquoteChar]) := by
    simp [String.data_append, dq]
  rw [hdata]
  simp

/-- Quote-stripping leaves a string alone when its first character is not a
double quote. -/
theorem stripQuotes_of_not_quote (s : String)
    (h : s.data.head? ≠ some dquoteChar) : stripQuotes s = s := by
  unfold stripQuotes
  rw [if_neg h]

theorem nl_data : ("\n" : String).data = [nlChar] := rfl

theorem eq_data : ("=" : String).data = [eqChar] := rfl

theorem string_mk_data (s : String) : String.mk s.data = s := rfl

theorem eq_char_eq : (Char.ofNat 61) = eqChar := rfl

theorem nl_char_eq : (Char.ofNat 10) = nlChar := rfl

theorem entryLineStr_data (kv : String × PValue) :
    (entryLineStr kv).data = kv.1.data ++ eqChar :: kv.2.render.data := by
  unfold entryLineStr
  rw [String.data_append, String.data_append, eq_data]
  simp

theorem splitOnChar_ne_nil (sep : Char) (l : List Char) :
    splitOnChar sep l ≠ [] := by
  induction l with
  | nil => simp [splitOnChar]
  | cons c cs ih =>
    rw [splitOnChar]
    split
    · simp
    · split
      · simp
      · simp

theorem splitOnChar_append (sep : Char) (l1 l2 : List Char) (h : sep ∉ l1) :
    splitOnChar sep (l1 ++ sep :: l2) = l1 :: splitOnChar sep l2 := by
  induction l1 with
  | nil =>
    simp only [List.nil_append]
    rw [splitOnChar]
    simp
  | cons c cs ih =>
    have hc : c ≠ sep := fun hc => h (hc ▸ List.mem_cons_self c cs)
    have hcs : sep ∉ cs := fun hm => h (List.mem_cons_of_mem c hm)
    simp only [List.cons_append]
    rw [splitOnChar, if_neg hc, ih hcs]

theorem splitOnChar_flatten (sep : Char) (L : List (List Char))
    (h : ∀ l ∈ L, sep ∉ l) :
    splitOnChar sep ((L.map (fun l => l ++ [sep])).flatten) = L ++ [[]] := by
  induction L with
  | nil => simp [splitOnChar]
  | cons l L ih =>
    have hl : sep ∉ l := h l (List.mem_cons_self l L)
    have hL : ∀ x ∈ L, sep ∉ x := fun x hx => h x (List.mem_cons_of_mem l hx)
    simp only [List.map_cons, List.flatten_cons]
    have hassoc : l ++ [sep] ++ (L.map (fun x => x ++ [sep])).flatten
        = l ++ sep :: (L.map (fun x => x ++ [sep])).flatten := by
      simp
    rw [hassoc, splitOnChar_append sep l _ hl, ih hL]
    rfl

theorem argfile_foldl_data (params : List (String × PValue)) (acc : String) :
    (params.foldl (fun a kv => a ++ kv.1 ++ "=" ++ kv.2.render ++ "\n") acc).data
      = acc.data
        ++ (params.map (fun kv => (entryLineStr kv).data ++ [nlChar])).flatten := by
  induction params generalizing acc with
  | nil => simp
  | cons kv ps ih =>
    simp only [List.foldl_cons, List.map_cons, List.flatten_cons]
    rw [ih]
    rw [String.data_append, String.data_append, String.data_append,
      String.data_append, nl_data, entryLineStr_data]
    simp
    decide

theorem takeWhile_until_eq (k v : List Char) (hk : eqChar ∉ k) :
    (k ++ eqChar :: v).takeWhile (fun c => c ≠ eqChar) = k := by
  induction k with
  | nil => simp
  | cons c cs ih =>
    have hc : c ≠ eqChar := fun hx => hk (hx ▸ List.mem_cons_self c cs)
    have hcs : eqChar ∉ cs := fun hm => hk (List.mem_cons_of_mem c hm)
    rw [List.cons_append, List.takeWhile_cons, if_pos (by simp [hc]), ih hcs]

theorem dropWhile_until_eq (k v : List Char) (hk : eqChar ∉ k) :
    (k ++ eqChar :: v).dropWhile (fun c => c ≠ eqChar) = eqChar :: v := by
  induction k with
  | nil => simp
  | cons c cs ih =>
    have hc : c ≠ eqChar := fun hx => hk (hx ▸ List.mem_cons_self c cs)
    have hcs : eqChar ∉ cs := fun hm => hk (List.mem_cons_of_mem c hm)
    rw [List.cons_append, List.dropWhile_cons, if_pos (by simp [hc]), ih hcs]

theorem parseLine_append (k v : List Char) (hk : eqChar ∉ k) :
    parseLine (k ++ eqChar :: v) = (String.mk k, String.mk v) := by
  unfold parseLine
  rw [takeWhile_until_eq k v hk, dropWhile_until_eq k v hk]
  simp

/-! ## Claim theorems -/

set_option maxRecDepth 16384

/-- C4: `check_if_installed` returns `false` on `None`, and on a string path
returns `true` exactly when the marker file `<path>/matlab/irc2.m` exists,
the path having been quote-stripped and resolved to an absolute path. -/
theorem check_if_installed_spec (resolve : String → String)
    (isFile : String → Bool) :
    check_if_installed resolve isFile none = false
    ∧ ∀ p : String, check_if_installed resolve isFile (some p)
        = isFile (resolve (stripQuotes p) ++ "/matlab/irc2.m") :=
  ⟨rfl, fun _ => rfl⟩

/-- Witness for C4 at a concrete resolver, filesystem and path. -/
theorem check_if_installed_spec_witness :
    check_if_installed id (fun _ => true) none = false
    ∧ check_if_installed id (fun _ => true) (some "/opt/ironclust")
        = (fun _ => true) (id (stripQuotes "/opt/ironclust") ++ "/matlab/irc2.m") :=
  ⟨(check_if_installed_spec id (fun _ => true)).1,
   (check_if_installed_spec id (fun _ => true)).2 "/opt/ironclust"⟩

/-- C5 counterexample: both halves of the claim fail on paths that themselves
begin with a double quote.  For the two-character path double-quote x, the
probe on the quoted path examines a different location than on the bare path
(which is stripped a second time), so the results differ on a filesystem
holding the marker at the quoted location; and quote-stripping applied twice
to the string double-quote, double-quote, a, double-quote differs from
applying it once. -/
theorem check_if_installed_quote_counterexample :
    check_if_installed id (fun s => s == dq ++ "x/matlab/irc2.m")
        (some (dq ++ (dq ++ "x") ++ dq))
      ≠ check_if_installed id (fun s => s == dq ++ "x/matlab/irc2.m")
          (some (dq ++ "x"))
    ∧ stripQuotes (stripQuotes
          (String.mk [dquoteChar, dquoteChar, Char.ofNat 97, dquoteChar]))
        ≠ stripQuotes
            (String.mk [dquoteChar, dquoteChar, Char.ofNat 97, dquoteChar]) := by
  constructor
  · decide
  · decide

/-- C5 (amended): for every path not beginning with a double quote, enclosing
it in one pair of double quotes does not change the probe's answer; and
quote-stripping is idempotent on every string whose once-stripped form does
not itself begin with a double quote. -/
theorem check_if_installed_quote_invariant (resolve : String → String)
    (isFile : String → Bool) (p s : String)
    (hp : p.data.head? ≠ some dquoteChar)
    (hs : (stripQuotes s).data.head? ≠ some dquoteChar) :
    check_if_installed resolve isFile (some (dq ++ p ++ dq))
      = check_if_installed resolve isFile (some p)
    ∧ stripQuotes (stripQuotes s) = stripQuotes s := by
  constructor
  · show isFile (resolve (stripQuotes (dq ++ p ++ dq)) ++ "/matlab/irc2.m")
      = isFile (resolve (stripQuotes p) ++ "/matlab/irc2.m")
    rw [stripQuotes_enclosing, stripQuotes_of_not_quote p hp]
  · exact stripQuotes_of_not_quote _ hs

/-- Witness for C5 at a concrete path and string. -/
theorem check_if_installed_quote_invariant_witness :
    check_if_installed id (fun _ => false) (some (dq ++ "/opt/irc" ++ dq))
      = check_if_installed id (fun _ => false) (some "/opt/irc")
    ∧ stripQuotes (stripQuotes "abc") = stripQuotes "abc" :=
  check_if_installed_quote_invariant id (fun _ => false) "/opt/irc" "abc"
    (by decide) (by decide)

/-- C1: when the installation probe fails on the configured path,
`_setup_recording` raises the installation error, whose message carries the
tool name, the clone URL and the environment-variable name, and writes
nothing under the output directory. -/
theorem setup_recording_not_installed (ironclust_path : Option String)
    (resolve : String → String) (isFile : String → Bool) (output_folder : String)
    (h : check_if_installed resolve isFile ironclust_path = false) :
    setup_recording ironclust_path resolve isFile output_folder
      = ([], some installation_mesg)
    ∧ strContains installation_mesg "IronClust" = true
    ∧ strContains installation_mesg
        "https://github.com/flatironinstitute/ironclust" = true
    ∧ strContains installation_mesg "IRONCLUST_PATH" = true := by
  refine ⟨?_, by decide, by decide, by decide⟩
  simp [setup_recording, h]

/-- Witness for C1: with no configured path the probe fails and the error is
raised before any write. -/
theorem setup_recording_not_installed_witness :
    setup_recording none id (fun _ => false) "out" = ([], some installation_mesg)
    ∧ strContains installation_mesg "IronClust" = true
    ∧ strContains installation_mesg
        "https://github.com/flatironinstitute/ironclust" = true
    ∧ strContains installation_mesg "IRONCLUST_PATH" = true :=
  setup_recording_not_installed none id (fun _ => false) "out" rfl

/-- C3: a non-zero child exit code makes `_run` raise the runtime error about
a non-zero exit code, and no run with that filesystem outcome reaches the
success branch. -/
theorem run_nonzero_exit (retcode : Int) (isFile : String → Bool)
    (output_folder samplerateStr : String) (h : retcode ≠ 0) :
    run_after_wait retcode isFile output_folder samplerateStr
      = .error "ironclust returned a non-zero exit code"
    ∧ ∀ w : String × String,
        run_after_wait retcode isFile output_folder samplerateStr ≠ .ok w := by
  constructor
  · simp [run_after_wait, h]
  · intro w
    simp [run_after_wait, h]

/-- Witness for C3 at exit code 1. -/
theorem run_nonzero_exit_witness :
    run_after_wait 1 (fun _ => true) "out" "30000.0"
      = .error "ironclust returned a non-zero exit code"
    ∧ ∀ w : String × String,
        run_after_wait 1 (fun _ => true) "out" "30000.0" ≠ .ok w :=
  run_nonzero_exit 1 (fun _ => true) "out" "30000.0" (by decide)

/-- C2: with exit code 0 but `tmp/firings.mda` absent, `_run` raises the
result-missing error naming that path; and with the file absent, no exit code
at all yields success. -/
theorem run_result_missing (retcode : Int) (isFile : String → Bool)
    (output_folder samplerateStr : String) (h0 : retcode = 0)
    (h1 : isFile (output_folder ++ "/tmp" ++ "/firings.mda") = false) :
    run_after_wait retcode isFile output_folder samplerateStr
      = .error ("Result file does not exist: "
          ++ (output_folder ++ "/tmp" ++ "/firings.mda"))
    ∧ ∀ (rc : Int) (w : String × String),
        run_after_wait rc isFile output_folder samplerateStr ≠ .ok w := by
  subst h0
  constructor
  · simp [run_after_wait, h1]
  · intro rc w
    by_cases hrc : rc = 0
    · subst hrc
      simp [run_after_wait, h1]
    · simp [run_after_wait, hrc]

/-- Witness for C2 at exit code 0 on an empty filesystem. -/
theorem run_result_missing_witness :
    run_after_wait 0 (fun _ => false) "out" "30000.0"
      = .error ("Result file does not exist: "
          ++ ("out" ++ "/tmp" ++ "/firings.mda"))
    ∧ ∀ (rc : Int) (w : String × String),
        run_after_wait rc (fun _ => false) "out" "30000.0" ≠ .ok w :=
  run_result_missing 0 (fun _ => false) "out" "30000.0" rfl rfl

/-- C7: the deserializer fails with a NotFound error naming the missing path
when the sampling-rate sidecar or the output file is missing, and produces a
sorting result exactly when both are present. -/
theorem get_result_from_folder_requirements (isFile : String → Bool)
    (readFile : String → String) (output_folder : String) :
    (isFile (output_folder ++ "/tmp" ++ "/samplerate.txt") = false →
      get_result_from_folder isFile readFile output_folder
        = .error ("NotFound: " ++ (output_folder ++ "/tmp" ++ "/samplerate.txt")))
    ∧ (isFile (output_folder ++ "/tmp" ++ "/samplerate.txt") = true →
       isFile (output_folder ++ "/tmp" ++ "/firings.mda") = false →
       get_result_from_folder isFile readFile output_folder
         = .error ("NotFound: " ++ (output_folder ++ "/tmp" ++ "/firings.mda")))
    ∧ ((∃ s, get_result_from_folder isFile readFile output_folder = .ok s)
        ↔ isFile (output_folder ++ "/tmp" ++ "/samplerate.txt") = true
          ∧ isFile (output_folder ++ "/tmp" ++ "/firings.mda") = true) := by
  unfold get_result_from_folder mdaSortingExtractor
  by_cases hs : isFile (output_folder ++ "/tmp" ++ "/samplerate.txt") = true
  · by_cases hf : isFile (output_folder ++ "/tmp" ++ "/firings.mda") = true
    · simp [hs, hf]
    · simp [hs, hf]
  · simp [hs]

/-- Witness for C7 on an empty filesystem: the sidecar is reported missing. -/
theorem get_result_from_folder_requirements_witness :
    get_result_from_folder (fun _ => false) (fun _ => "") "out"
      = .error ("NotFound: " ++ ("out" ++ "/tmp" ++ "/samplerate.txt")) :=
  (get_result_from_folder_requirements (fun _ => false) (fun _ => "") "out").1 rfl

/-- C8: with the host platform fixed, the invocation builder is
deterministic — equal inputs give byte-identical MATLAB script text and
byte-identical shell command text. -/
theorem build_invocation_deterministic (platform : String)
    (ip td dd sd ip2 td2 dd2 sd2 : String)
    (h : (ip, td, dd, sd) = (ip2, td2, dd2, sd2)) :
    buildMatlabScript ip td dd sd = buildMatlabScript ip2 td2 dd2 sd2
    ∧ buildShellCmd platform td = buildShellCmd platform td2 := by
  simp only [Prod.mk.injEq] at h
  obtain ⟨h1, h2, h3, h4⟩ := h
  subst h1; subst h2; subst h3; subst h4
  exact ⟨rfl, rfl⟩

/-- Witness for C8 at concrete paths on a POSIX platform. -/
theorem build_invocation_deterministic_witness :
    buildMatlabScript "/opt/irc" "out/tmp" "out/ironclust_dataset" "src"
      = buildMatlabScript "/opt/irc" "out/tmp" "out/ironclust_dataset" "src"
    ∧ buildShellCmd "linux" "out/tmp" = buildShellCmd "linux" "out/tmp" :=
  build_invocation_deterministic "linux" "/opt/irc" "out/tmp"
    "out/ironclust_dataset" "src" "/opt/irc" "out/tmp" "out/ironclust_dataset"
    "src" rfl

/-- C9: with the environment variable set, `get_sorter_version` returns the
sentinel string unknown when `matlab/version.txt` is absent under the
installation path, and otherwise the version value extracted from the file's
first line. -/
theorem get_sorter_version_spec (p : String) (attr : Option String)
    (pathExists : String → Bool) (readFirstLine : String → String)
    (evalLine : String → Option String) :
    (pathExists (p ++ "/matlab/version.txt") = false →
      get_sorter_version (some p) attr pathExists readFirstLine evalLine
        = .ok "unknown")
    ∧ ∀ v : String, pathExists (p ++ "/matlab/version.txt") = true →
        evalLine (readFirstLine (p ++ "/matlab/version.txt")) = some v →
        get_sorter_version (some p) attr pathExists readFirstLine evalLine
          = .ok v := by
  constructor
  · intro h
    simp [get_sorter_version, h]
  · intro v h1 h2
    simp [get_sorter_version, h1, h2]

/-- Witness for C9: absent version file gives unknown; present one gives the
extracted value. -/
theorem get_sorter_version_spec_witness :
    get_sorter_version (some "/opt/irc") none (fun _ => false) (fun _ => "")
        (fun _ => none) = .ok "unknown"
    ∧ get_sorter_version (some "/opt/irc") none (fun _ => true) (fun _ => "")
        (fun _ => some "5.9.8") = .ok "5.9.8" :=
  ⟨(get_sorter_version_spec "/opt/irc" none (fun _ => false) (fun _ => "")
      (fun _ => none)).1 rfl,
   (get_sorter_version_spec "/opt/irc" none (fun _ => true) (fun _ => "")
      (fun _ => some "5.9.8")).2 "5.9.8" rfl rfl⟩

/-- C10: `get_sorter_version` consults only the `IRONCLUST_PATH` environment
variable — an unset variable raises a key-lookup error rather than returning
the sentinel, and the result never depends on the class attribute. -/
theorem get_sorter_version_env_only (attr attr2 : Option String)
    (pathExists : String → Bool) (readFirstLine : String → String)
    (evalLine : String → Option String) :
    get_sorter_version none attr pathExists readFirstLine evalLine
      = .error "KeyError: IRONCLUST_PATH"
    ∧ get_sorter_version none attr pathExists readFirstLine evalLine
        ≠ .ok "unknown"
    ∧ ∀ env : Option String,
        get_sorter_version env attr pathExists readFirstLine evalLine
          = get_sorter_version env attr2 pathExists readFirstLine evalLine := by
  refine ⟨rfl, by simp [get_sorter_version], fun env => rfl⟩

/-- C6 counterexample: the round trip fails on a string-valued parameter
containing a newline.  For the single-entry mapping a maps-to the string x
newline y, at sampling rate text 30000.0, the generated text has three
non-empty lines instead of one per entry plus one samplerate line, and
re-parsing does not recover the mapping. -/
theorem argfile_roundtrip_counterexample :
    (argfileLines (argfileText [("a", PValue.str ("x" ++ "\n" ++ "y"))]
        "30000.0")).length ≠ 1 + 1
    ∧ parseArgfile (argfileText [("a", PValue.str ("x" ++ "\n" ++ "y"))]
          "30000.0")
        ≠ [("a", "x" ++ "\n" ++ "y"), ("samplerate", "30000.0")] := by
  constructor
  · decide
  · decide

/-- C6 (amended): for every parameter mapping whose keys contain no newline
and no equals sign and whose rendered values contain no newline (and a
sampling-rate text with no newline), the generated argfile text consists of
exactly one `key=value` line per mapping entry followed by exactly one
`samplerate=` line, and re-parsing the text recovers the original mapping
(with the values in their rendered form) plus the samplerate entry. -/
theorem argfile_lines_roundtrip (params : List (String × PValue))
    (samplerateStr : String) (hgood : ∀ kv ∈ params, goodEntry kv)
    (hsr : nlChar ∉ samplerateStr.data) :
    (argfileLines (argfileText params samplerateStr)).map String.mk
      = params.map entryLineStr ++ ["samplerate=" ++ samplerateStr]
    ∧ parseArgfile (argfileText params samplerateStr)
      = params.map (fun kv => (kv.1, kv.2.render))
        ++ [("samplerate", samplerateStr)] := by
  have hdata : (argfileText params samplerateStr).data
      = ((params.map (fun kv => (entryLineStr kv).data)
          ++ [("samplerate=" ++ samplerateStr).data]).map
            (fun l => l ++ [nlChar])).flatten := by
    unfold argfileText
    rw [String.data_append, String.data_append, String.data_append,
      argfile_foldl_data, nl_data]
    simp [String.data_append, List.map_map]
    rfl
  have hmem : ∀ l ∈ params.map (fun kv => (entryLineStr kv).data)
      ++ [("samplerate=" ++ samplerateStr).data], nlChar ∉ l := by
    intro l hl
    rcases List.mem_append.1 hl with hl | hl
    · rcases List.mem_map.1 hl with ⟨kv, hkv, rfl⟩
      obtain ⟨h1, _, h3⟩ := hgood kv hkv
      rw [entryLineStr_data]
      intro hm
      rcases List.mem_append.1 hm with hm | hm
      · exact h1 hm
      · rcases List.mem_cons.1 hm with hm | hm
        · exact absurd hm (by decide)
        · exact h3 hm
    · simp only [List.mem_singleton] at hl
      subst hl
      rw [String.data_append]
      intro hm
      rcases List.mem_append.1 hm with hm | hm
      · exact absurd hm (by decide)
      · exact hsr hm
  have hne : ∀ x ∈ params.map (fun kv => (entryLineStr kv).data)
      ++ [("samplerate=" ++ samplerateStr).data], (fun l : List Char => !l.isEmpty) x = true := by
    intro x hx
    have hxne : x ≠ [] := by
      rcases List.mem_append.1 hx with h | h
      · rcases List.mem_map.1 h with ⟨kv, _, rfl⟩
        rw [entryLineStr_data]
        intro hcontra
        simp at hcontra
      · simp only [List.mem_singleton] at h
        subst h
        rw [String.data_append]
        intro hcontra
        have h2 := (List.append_eq_nil.1 hcontra).1
        exact absurd h2 (by decide)
    simp [hxne]
  have hlines : argfileLines (argfileText params samplerateStr)
      = params.map (fun kv => (entryLineStr kv).data)
        ++ [("samplerate=" ++ samplerateStr).data] := by
    unfold argfileLines
    rw [hdata, splitOnChar_flatten nlChar _ hmem, List.filter_append,
      List.filter_eq_self.2 hne]
    simp
  have hb : ("samplerate=" ++ samplerateStr).data
      = ("samplerate" : String).data ++ eqChar :: samplerateStr.data := by
    rw [String.data_append]
    have h10 : ("samplerate=" : String).data
        = ("samplerate" : String).data ++ [eqChar] := by decide
    rw [h10, List.append_assoc]
    rfl
  constructor
  · rw [hlines, List.map_append, List.map_map]
    have hA : params.map (String.mk ∘ fun kv => (entryLineStr kv).data)
        = params.map entryLineStr :=
      List.map_congr_left fun kv _ => string_mk_data (entryLineStr kv)
    rw [hA]
    rfl
  · unfold parseArgfile
    rw [hlines, List.map_append, List.map_map]
    have hA : params.map (parseLine ∘ fun kv => (entryLineStr kv).data)
        = params.map (fun kv => (kv.1, kv.2.render)) := by
      refine List.map_congr_left fun kv hkv => ?_
      obtain ⟨_, h2, _⟩ := hgood kv hkv
      show parseLine (entryLineStr kv).data = (kv.1, kv.2.render)
      rw [entryLineStr_data, parseLine_append kv.1.data kv.2.render.data h2]
    rw [hA]
    simp only [List.map_cons, List.map_nil]
    rw [hb, parseLine_append _ _ (by decide)]

/-- Witness for C6 at a three-entry mapping with an integer, a boolean and a
string value. -/
theorem argfile_lines_roundtrip_witness :
    (argfileLines (argfileText
        [("detect_sign", PValue.int (-1)), ("whiten", PValue.bool false),
         ("filter_type", PValue.str "bandpass")] "30000.0")).map String.mk
      = [("detect_sign", PValue.int (-1)), ("whiten", PValue.bool false),
         ("filter_type", PValue.str "bandpass")].map entryLineStr
        ++ ["samplerate=" ++ "30000.0"]
    ∧ parseArgfile (argfileText
        [("detect_sign", PValue.int (-1)), ("whiten", PValue.bool false),
         ("filter_type", PValue.str "bandpass")] "30000.0")
      = [("detect_sign", PValue.int (-1)), ("whiten", PValue.bool false),
         ("filter_type", PValue.str "bandpass")].map
            (fun kv => (kv.1, kv.2.render))
        ++ [("samplerate", "30000.0")] :=
  argfile_lines_roundtrip
    [("detect_sign", PValue.int (-1)), ("whiten", PValue.bool false),
     ("filter_type", PValue.str "bandpass")] "30000.0" (by decide) (by decide)

/-- Witness for C10 at concrete attributes and filesystem. -/
theorem get_sorter_version_env_only_witness :
    get_sorter_version none (some "/a") (fun _ => true) (fun _ => "")
        (fun _ => none) = .error "KeyError: IRONCLUST_PATH"
    ∧ get_sorter_version none (some "/a") (fun _ => true) (fun _ => "")
        (fun _ => none) ≠ .ok "unknown"
    ∧ ∀ env : Option String,
        get_sorter_version env (some "/a") (fun _ => true) (fun _ => "")
            (fun _ => none)
          = get_sorter_version env (some "/b") (fun _ => true) (fun _ => "")
              (fun _ => none) :=
  get_sorter_version_env_only (some "/a") (some "/b") (fun _ => true)
    (fun _ => "") (fun _ => none)

end IronClust
